import Mathlib

/-!
Verification of the health-dashboard metric-derivation pipeline
(`src/compute_phase1.py` and the trend/status logic of `app.py`).

The Python code is shallowly embedded: numeric values become `ℚ`
(Python floats carry exact decimal-looking values in all relevant code
paths; none of the claims depend on rounding), naive timestamps become
`Int` seconds, calendar days become `Int` day numbers, pandas tables
become lists of rows, and code that can raise becomes `Except String`.
-/

namespace Health

/-! ### Zone classification (`_classify_zone`, compute_phase1.py lines 6-22)

`ZONES = {Z1: (None, 105), Z2: (106, 122), Z3: (123, 135), Z4: (136, 148),
Z5: (149, None)}`; the function scans the dict in insertion order and
returns the first zone whose band contains `hr`, else `"UNK"`. -/

def classify_zone (hr : ℚ) : String :=
  if hr ≤ 105 then "Z1"
  else if 106 ≤ hr ∧ hr ≤ 122 then "Z2"
  else if 123 ≤ hr ∧ hr ≤ 135 then "Z3"
  else if 136 ≤ hr ∧ hr ≤ 148 then "Z4"
  else if 149 ≤ hr then "Z5"
  else "UNK"

/-! ### Sleep scoring (`derive_sleep_score`, compute_phase1.py lines 90-107)

Per input row: `duration = total.clip(0, 9)`,
`duration_score = (duration / 7.5).clip(0, 1) * 70`,
`awake_penalty = (awake.clip(0, 3) / 1.0).clip(0, 1) * 30`,
`score = (duration_score + (30 - awake_penalty)).clip(0, 100)`.
`Series.clip(lo, hi)` is `min (max x lo) hi` pointwise. -/

def clip (x lo hi : ℚ) : ℚ := min (max x lo) hi

def sleep_score (total awake : ℚ) : ℚ :=
  let duration := clip total 0 9
  let duration_score := clip (duration / (15/2)) 0 1 * 70
  let awake_c := clip awake 0 3
  let awake_penalty := clip (awake_c / 1) 0 1 * 30
  clip (duration_score + (30 - awake_penalty)) 0 100

/-- Modelled from the spec wording of the claim, for comparison with the
code's `sleep_score`: `clamp(duration_score + (30 - awake_penalty), 0, 100)`
with `duration_score = clamp(clamp(total,0,9)/7.5, 0, 1) × 70` and
`awake_penalty = clamp(clamp(awake,0,3)/1.0, 0, 1) × 30`. -/
def sleep_score_spec (total awake : ℚ) : ℚ :=
  clip (clip (clip total 0 9 / (15/2)) 0 1 * 70 +
    (30 - clip (clip awake 0 3 / 1) 0 1 * 30)) 0 100

/-! ### Status classifier (`status`, app.py lines 21-44)

`direction = spec.get("direction", "higher_better")`; bands are pairs.
`in_band v lo hi = (v ≥ lo) ∧ (v < hi)` (half-open). `range_best` uses the
green band plus a fixed 1-unit borderline margin; `higher_better` and
`lower_better` have syntactically identical bodies; any other direction
falls through to `("Borderline", "orange")`. -/

structure TargetSpec where
  direction : Option String
  green : ℚ × ℚ
  yellow : ℚ × ℚ
  red : ℚ × ℚ

def in_band (v lo hi : ℚ) : Bool := decide (lo ≤ v) && decide (v < hi)

def status (value : ℚ) (spec : TargetSpec) : String × String :=
  let direction := spec.direction.getD "higher_better"
  let g0 := spec.green.1; let g1 := spec.green.2
  let y0 := spec.yellow.1; let y1 := spec.yellow.2
  if direction = "range_best" then
    if in_band value g0 g1 then ("On target", "green")
    else if (decide (g0 - 1 ≤ value) && decide (value < g0)) ||
        (decide (g1 ≤ value) && decide (value ≤ g1 + 1)) then ("Borderline", "orange")
    else ("Off target", "red")
  else if direction = "higher_better" then
    if in_band value g0 g1 then ("On target", "green")
    else if in_band value y0 y1 then ("Borderline", "orange")
    else ("Off target", "red")
  else if direction = "lower_better" then
    if in_band value g0 g1 then ("On target", "green")
    else if in_band value y0 y1 then ("Borderline", "orange")
    else ("Off target", "red")
  else ("Borderline", "orange")

/-! ### Payload data model (compute_phase1.py lines 24-61)

Timestamp strings are modelled by whether `dateutil.parser.parse` accepts
them: accepted strings carry their tz-stripped value as naive epoch
seconds, rejected ones raise. Values under the value key are modelled by
whether Python `float()` accepts them (numbers and numeric strings carry
their numeric value; anything `float()` rejects raises). A JSON key that
is absent or null is `none` (`dict.get` returns `None` for both).
The `data` wrapper key (`p.get("data", p)`) is transparent and elided. -/

inductive TsStr where
  | valid (t : Int)
  | malformed (s : String)
deriving DecidableEq

inductive JVal where
  | num (q : ℚ)
  | nonNumeric (s : String)
deriving DecidableEq

def parseTs : TsStr → Except String Int
  | .valid t => .ok t
  | .malformed s => .error s

def toFloat : JVal → Except String ℚ
  | .num q => .ok q
  | .nonNumeric s => .error s

/-- Calendar-day bucket of a naive timestamp (`pd.Timestamp(dt).normalize()`):
floor of the epoch-second value to whole days. -/
def to_day (t : Int) : Int := Int.fdiv t 86400

structure DataPoint where
  date : Option TsStr
  qty : Option JVal
  totalSleep : Option JVal := none
  awake : Option JVal := none
deriving DecidableEq

structure Metric where
  name : String
  data : List DataPoint
deriving DecidableEq

structure HRPoint where
  date : Option TsStr
  avg : Option JVal
deriving DecidableEq

structure Workout where
  endTs : Option TsStr
  heartRateData : List HRPoint
deriving DecidableEq

structure Payload where
  metrics : List Metric
  workouts : List Workout
deriving DecidableEq

/-! ### Metric extraction (`extract_metric_series`, compute_phase1.py lines 31-61)

Per data point: skip if `date` is absent, then skip if the value under the
value key is absent/null, then evaluate `_to_day(d["date"])` (which raises
on a malformed timestamp) and `float(val)` (which raises on a non-numeric
value), in that order. -/

def pointRow (d : DataPoint) : Except String (Option (Int × ℚ)) :=
  match d.date, d.qty with
  | none, _ => .ok none
  | some _, none => .ok none
  | some ds, some v =>
    match parseTs ds with
    | .error e => .error e
    | .ok t =>
      match toFloat v with
      | .error e => .error e
      | .ok q => .ok (some (to_day t, q))

def pointsRows : List DataPoint → Except String (List (Int × ℚ))
  | [] => .ok []
  | d :: rest =>
    match pointRow d with
    | .error e => .error e
    | .ok r =>
      match pointsRows rest with
      | .error e => .error e
      | .ok rs => .ok (match r with | none => rs | some row => row :: rs)

def metricsRows (name : String) : List Metric → Except String (List (Int × ℚ))
  | [] => .ok []
  | m :: rest =>
    match (if m.name = name then pointsRows m.data else .ok []) with
    | .error e => .error e
    | .ok here =>
      match metricsRows name rest with
      | .error e => .error e
      | .ok rs => .ok (here ++ rs)

def allRows (name : String) : List Payload → Except String (List (Int × ℚ))
  | [] => .ok []
  | p :: rest =>
    match metricsRows name p.metrics with
    | .error e => .error e
    | .ok here =>
      match allRows name rest with
      | .error e => .error e
      | .ok rs => .ok (here ++ rs)

def sum_metrics : List String := ["mindful_minutes", "alcohol_consumption"]

/-- Aggregation step of `extract_metric_series`: `df.groupby("date")` with
`.sum()` for sum-type metrics and `.mean()` otherwise. pandas `groupby`
sorts the group keys ascending and each group aggregates all same-day
values. -/
def groupAgg (isSum : Bool) (rows : List (Int × ℚ)) : List (Int × ℚ) :=
  let days := List.insertionSort (· ≤ ·) (rows.map Prod.fst).dedup
  days.map fun d =>
    let vs := (rows.filter (fun r => r.1 = d)).map Prod.snd
    (d, if isSum then vs.sum else vs.sum / (vs.length : ℚ))

def extract_metric_series (ps : List Payload) (name : String) :
    Except String (List (Int × ℚ)) :=
  match allRows name ps with
  | .error e => .error e
  | .ok rows => .ok (groupAgg (sum_metrics.contains name) rows)

/-- A data point that cannot make `extract_metric_series` raise: either it
is skipped (absent date or absent/null value) or its timestamp parses and
its value is numeric. -/
def pointWF (d : DataPoint) : Bool :=
  match d.date, d.qty with
  | some (TsStr.malformed _), some _ => false
  | some _, some (JVal.nonNumeric _) => false
  | _, _ => true

/-- Every data point of every metric matching `name` is well-formed. -/
def wellFormed (ps : List Payload) (name : String) : Bool :=
  ps.all fun p => p.metrics.all fun m => m.name != name || m.data.all pointWF

/-- A data point contributing no row: absent date or absent/null value. -/
def pointSkipped (d : DataPoint) : Bool := d.date.isNone || d.qty.isNone

/-- No matching data found anywhere: every data point of every metric
matching `name` is skipped. -/
def noMatch (ps : List Payload) (name : String) : Bool :=
  ps.all fun p => p.metrics.all fun m => m.name != name || m.data.all pointSkipped

/-! ### Workout zone minutes and HRR1
(`compute_zone_minutes_and_hrr1`, compute_phase1.py lines 109-190) -/

/-- Per-workout row of the daily zone table before daily aggregation:
`z1..z5` sample counts, `total = sum(zmins.values())` (`cardio_min`) and
`pct` (`zone2_pct`). -/
structure ZRow where
  day : Int
  z1 : Nat
  z2 : Nat
  z3 : Nat
  z4 : Nat
  z5 : Nat
  total : Nat
  pct : ℚ
deriving DecidableEq

/-- Valid `(timestamp, Avg)` pairs of a workout's `heartRateData`: points
with absent `Avg` or absent `date` are skipped; present points parse the
timestamp (raising on a malformed one) then coerce `Avg` with `float`
(raising on a non-numeric one). -/
def hrPts : List HRPoint → Except String (List (Int × ℚ))
  | [] => .ok []
  | hp :: rest =>
    match hp.avg, hp.date with
    | none, _ => hrPts rest
    | some _, none => hrPts rest
    | some v, some ds =>
      match parseTs ds with
      | .error e => .error e
      | .ok t =>
        match toFloat v with
        | .error e => .error e
        | .ok q =>
          match hrPts rest with
          | .error e => .error e
          | .ok rs => .ok ((t, q) :: rs)

/-- Count of samples classified into zone `z`
(`zmins[z] += 1` for `z in zmins`). -/
def zcount (z : String) (pts : List (Int × ℚ)) : Nat :=
  (pts.filter (fun p => classify_zone p.2 = z)).length

/-- Index of the peak sample:
`max(range(len(pts)), key=lambda i: pts[i][1])`. Python `max` keeps the
first occurrence of the maximum, replacing only on strictly greater. -/
def peakIdx (pts : List (Int × ℚ)) : Nat :=
  (List.range pts.length).foldl
    (fun best i => if (pts.getD best (0, 0)).2 < (pts.getD i (0, 0)).2 then i else best) 0

/-- HRR1 of a sorted sample list: peak value minus the value of the first
sample from the peak onward timestamped at least `peak_time + 60` seconds,
falling back to the last sample's value. -/
def hrr1 (pts : List (Int × ℚ)) : ℚ :=
  (pts.getD (peakIdx pts) (0, 0)).2 -
    (match (pts.drop (peakIdx pts)).find?
        (fun p => decide ((pts.getD (peakIdx pts) (0, 0)).1 + 60 ≤ p.1)) with
     | some p => p.2
     | none => (pts.getLast?.getD (0, 0)).2)

/-- Day bucket of a workout: `_to_day(w["end"])` when `end` is present
(raising on a malformed timestamp), else the day of the last sorted sample. -/
def workoutDay (w : Workout) (pts : List (Int × ℚ)) : Except String Int :=
  match w.endTs with
  | some ds =>
    match parseTs ds with
    | .error e => .error e
    | .ok t => .ok (to_day t)
  | none => .ok (to_day (pts.getLast?.getD (0, 0)).1)

/-- `total = sum(zmins.values())` (`cardio_min`) of a sample list. -/
def zTotal (pts : List (Int × ℚ)) : Nat :=
  zcount "Z1" pts + zcount "Z2" pts + zcount "Z3" pts + zcount "Z4" pts + zcount "Z5" pts

/-- The per-workout row of the daily zone table. -/
def zrowOf (day : Int) (pts : List (Int × ℚ)) : ZRow :=
  { day := day, z1 := zcount "Z1" pts, z2 := zcount "Z2" pts, z3 := zcount "Z3" pts,
    z4 := zcount "Z4" pts, z5 := zcount "Z5" pts, total := zTotal pts,
    pct := 100 * (zcount "Z2" pts : ℚ) / (zTotal pts : ℚ) }

/-- One workout's contribution: no rows when it has fewer than 5 valid
samples or a zero zone-minute total (the `total == 0` guard skips the
HRR1 block too), else one zone row and one HRR1 row. -/
def workoutRows (w : Workout) : Except String (List ZRow × List (Int × ℚ)) :=
  match hrPts w.heartRateData with
  | .error e => .error e
  | .ok pts0 =>
    if pts0.length < 5 then .ok ([], [])
    else
      match workoutDay w (List.insertionSort (fun a b => a.1 ≤ b.1) pts0) with
      | .error e => .error e
      | .ok day =>
        if zTotal (List.insertionSort (fun a b => a.1 ≤ b.1) pts0) = 0 then .ok ([], [])
        else
          .ok ([zrowOf day (List.insertionSort (fun a b => a.1 ≤ b.1) pts0)],
               [(day, hrr1 (List.insertionSort (fun a b => a.1 ≤ b.1) pts0))])

def workoutsRows : List Workout → Except String (List ZRow × List (Int × ℚ))
  | [] => .ok ([], [])
  | w :: rest =>
    match workoutRows w with
    | .error e => .error e
    | .ok (zs, hs) =>
      match workoutsRows rest with
      | .error e => .error e
      | .ok (zs2, hs2) => .ok (zs ++ zs2, hs ++ hs2)

def computeRows : List Payload → Except String (List ZRow × List (Int × ℚ))
  | [] => .ok ([], [])
  | p :: rest =>
    match workoutsRows p.workouts with
    | .error e => .error e
    | .ok (zs, hs) =>
      match computeRows rest with
      | .error e => .error e
      | .ok (zs2, hs2) => .ok (zs ++ zs2, hs ++ hs2)

/-- Daily aggregation of the zone table: `groupby("date").sum()` over all
numeric columns, then `zone2_pct` is overwritten with
`100 * z2_min / cardio_min.where(cardio_min > 0, 1)` (the summed `pct`
column is never observable). -/
def dailyAgg (rows : List ZRow) : List ZRow :=
  let days := List.insertionSort (· ≤ ·) (rows.map ZRow.day).dedup
  days.map fun d =>
    let rs := rows.filter (fun r => r.day = d)
    let s1 := (rs.map ZRow.z1).sum
    let s2 := (rs.map ZRow.z2).sum
    let s3 := (rs.map ZRow.z3).sum
    let s4 := (rs.map ZRow.z4).sum
    let s5 := (rs.map ZRow.z5).sum
    let st := (rs.map ZRow.total).sum
    { day := d, z1 := s1, z2 := s2, z3 := s3, z4 := s4, z5 := s5, total := st,
      pct := 100 * (s2 : ℚ) / (if 0 < st then (st : ℚ) else 1) }

/-- Full analyzer: per-workout rows, then the zone table aggregated by
daily sums with the `zone2_pct` guard and the HRR1 table aggregated by
daily mean. -/
def compute_zone_minutes_and_hrr1 (ps : List Payload) :
    Except String (List ZRow × List (Int × ℚ)) :=
  match computeRows ps with
  | .error e => .error e
  | .ok (zr, hr) => .ok (dailyAgg zr, groupAgg false hr)

/-! ### Sleep extraction (`extract_sleep_analysis`, compute_phase1.py
lines 63-88) and the derived score table (lines 90-107) -/

/-- Value of `float(d.get("awake", 0.0) or 0.0)`: absent/null or falsy
(zero, empty string) yields 0; a truthy non-numeric value raises. -/
def awakeVal : Option JVal → Except String ℚ
  | none => .ok 0
  | some (JVal.num q) => .ok q
  | some (JVal.nonNumeric s) => if s = "" then .ok 0 else .error s

def sleepPointRow (d : DataPoint) : Except String (Option (Int × ℚ × ℚ)) :=
  match d.date with
  | none => .ok none
  | some ds =>
    match d.totalSleep with
    | none => .ok none
    | some tv =>
      match parseTs ds with
      | .error e => .error e
      | .ok t =>
        match toFloat tv with
        | .error e => .error e
        | .ok qt =>
          match awakeVal d.awake with
          | .error e => .error e
          | .ok qa => .ok (some (to_day t, qt, qa))

def sleepPointsRows : List DataPoint → Except String (List (Int × ℚ × ℚ))
  | [] => .ok []
  | d :: rest =>
    match sleepPointRow d with
    | .error e => .error e
    | .ok r =>
      match sleepPointsRows rest with
      | .error e => .error e
      | .ok rs => .ok (match r with | none => rs | some row => row :: rs)

def sleepMetricsRows : List Metric → Except String (List (Int × ℚ × ℚ))
  | [] => .ok []
  | m :: rest =>
    match (if m.name = "sleep_analysis" then sleepPointsRows m.data else .ok []) with
    | .error e => .error e
    | .ok here =>
      match sleepMetricsRows rest with
      | .error e => .error e
      | .ok rs => .ok (here ++ rs)

/-- Same-day aggregation by mean of both numeric columns
(`groupby("date").mean(numeric_only=True)`). -/
def sleepAgg (rows : List (Int × ℚ × ℚ)) : List (Int × ℚ × ℚ) :=
  let days := List.insertionSort (· ≤ ·) (rows.map Prod.fst).dedup
  days.map fun d =>
    let rs := rows.filter (fun r => r.1 = d)
    (d, (rs.map fun r => r.2.1).sum / (rs.length : ℚ),
        (rs.map fun r => r.2.2).sum / (rs.length : ℚ))

def extract_sleep_analysis : List Payload → Except String (List (Int × ℚ × ℚ))
  | [] => .ok []
  | p :: rest =>
    match sleepMetricsRows p.metrics with
    | .error e => .error e
    | .ok here =>
      match extract_sleep_analysis rest with
      | .error e => .error e
      | .ok rs => .ok (here ++ rs)

def extract_sleep_daily (ps : List Payload) : Except String (List (Int × ℚ × ℚ)) :=
  match extract_sleep_analysis ps with
  | .error e => .error e
  | .ok rows => .ok (sleepAgg rows)

/-- Table form of `derive_sleep_score`: one `sleep_score_derived` value per
sleep row. -/
def derive_sleep_score (rows : List (Int × ℚ × ℚ)) : List (Int × ℚ) :=
  rows.map fun r => (r.1, sleep_score r.2.1 r.2.2)

/-! ### Daily merge (`build_phase1_daily`, compute_phase1.py lines 192-218)

A pandas DataFrame becomes a `Table`: the list of its non-date column
names and its rows, each a date key with one optional value per column. -/

structure Table where
  cols : List String
  rows : List (Int × List (Option ℚ))
deriving DecidableEq

def Table.dates (t : Table) : List Int := t.rows.map Prod.fst

def tableOfSeries (name : String) (s : List (Int × ℚ)) : Table :=
  ⟨[name], s.map fun r => (r.1, [some r.2])⟩

def tableOfZ (rows : List ZRow) : Table :=
  ⟨["z1_min", "z2_min", "z3_min", "z4_min", "z5_min", "cardio_min", "zone2_pct"],
   rows.map fun r => (r.day, [some (r.z1 : ℚ), some (r.z2 : ℚ), some (r.z3 : ℚ),
     some (r.z4 : ℚ), some (r.z5 : ℚ), some (r.total : ℚ), some r.pct])⟩

def lookupRow (t : Table) (d : Int) : List (Option ℚ) :=
  match t.rows.find? (fun r => r.1 = d) with
  | some r => r.2
  | none => t.cols.map fun _ => none

/-- Outer merge of two date-keyed tables (`merge(on="date", how="outer")`):
the date set is the union, columns are concatenated, absent dates pad
with nulls. -/
def mergeTables (a b : Table) : Table :=
  let ds := a.dates ++ b.dates.filter (fun d => ¬ d ∈ a.dates)
  ⟨a.cols ++ b.cols, ds.map fun d => (d, lookupRow a d ++ lookupRow b d)⟩

def sortTable (t : Table) : Table :=
  ⟨t.cols, List.insertionSort (fun r s => r.1 ≤ s.1) t.rows⟩

/-- The nine per-source daily tables, in the merge order of the `dfs` list
(`workouts_daily, hrr, hrv, rhr, rr, bd, mm, alc, sleep_score`). -/
def sourceTables (ps : List Payload) : Except String (List Table) :=
  match extract_metric_series ps "heart_rate_variability" with
  | .error e => .error e
  | .ok hrv =>
  match extract_metric_series ps "resting_heart_rate" with
  | .error e => .error e
  | .ok rhr =>
  match extract_metric_series ps "respiratory_rate" with
  | .error e => .error e
  | .ok rr =>
  match extract_metric_series ps "breathing_disturbances" with
  | .error e => .error e
  | .ok bd =>
  match extract_metric_series ps "mindful_minutes" with
  | .error e => .error e
  | .ok mm =>
  match extract_metric_series ps "alcohol_consumption" with
  | .error e => .error e
  | .ok alc =>
  match extract_sleep_daily ps with
  | .error e => .error e
  | .ok sleep =>
  match compute_zone_minutes_and_hrr1 ps with
  | .error e => .error e
  | .ok wdhrr =>
    .ok [tableOfZ wdhrr.1, tableOfSeries "hrr1" wdhrr.2,
         tableOfSeries "heart_rate_variability" hrv,
         tableOfSeries "resting_heart_rate" rhr,
         tableOfSeries "respiratory_rate" rr,
         tableOfSeries "breathing_disturbances" bd,
         tableOfSeries "mindful_minutes" mm,
         tableOfSeries "alcohol_consumption" alc,
         tableOfSeries "sleep_score_derived" (derive_sleep_score sleep)]

/-- One merge step: empty tables are skipped (`if d is None or d.empty:
continue`), the first non-empty table seeds the base. -/
def mergeStep (base : Option Table) (t : Table) : Option Table :=
  if t.rows.isEmpty then base
  else
    match base with
    | none => some t
    | some b => some (mergeTables b t)

/-- `build_phase1_daily`: outer-merge all non-empty source tables, return
an empty date-only table when every source is empty, else sort ascending
by date. -/
def build_phase1_daily (ps : List Payload) : Except String Table :=
  match sourceTables ps with
  | .error e => .error e
  | .ok ts =>
    .ok (match ts.foldl mergeStep none with
         | none => ⟨[], []⟩
         | some b => sortTable b)

/-! ### Rolling trend layer (`rolling_mean` and the HRV delta, app.py
lines 98-108)

The HRV series is `df[["date", "heart_rate_variability"]].dropna()`; the
rolling windows slide over the ROWS of that dropna-ed series. A window at
position `i` covers rows `max(0, i-n+1)..i` and yields a mean only when it
holds at least `minp` rows. -/

def rolling_mean (xs : List ℚ) (n minp : Nat) : List (Option ℚ) :=
  (List.range xs.length).map fun i =>
    let w := (xs.take (i + 1)).drop (i + 1 - n)
    if minp ≤ w.length then some (w.sum / (w.length : ℚ)) else none

def hrv7 (s : List (Int × ℚ)) : List (Int × Option ℚ) :=
  (s.zip (rolling_mean (s.map Prod.snd) 7 4)).map fun pr => (pr.1.1, pr.2)

def baseline30 (s : List (Int × ℚ)) : List (Int × Option ℚ) :=
  (s.zip (rolling_mean (s.map Prod.snd) 30 14)).map fun pr => (pr.1.1, pr.2)

/-- `hrv_delta_pct = 100 * (hrv7 - baseline30) / baseline30`, undefined
(NaN) where either input is undefined and non-finite (modelled undefined)
where the baseline is 0. -/
def hrv_delta_pct (s : List (Int × ℚ)) : List (Int × Option ℚ) :=
  (s.zip ((rolling_mean (s.map Prod.snd) 7 4).zip
      (rolling_mean (s.map Prod.snd) 30 14))).map fun pr =>
    (pr.1.1,
     match pr.2.1, pr.2.2 with
     | some a, some b => if b = 0 then none else some (100 * (a - b) / b)
     | _, _ => none)

/-- Number of present values of the series among the 7 calendar days
ending at `d` (the last 7 days). -/
def presentLast7 (s : List (Int × ℚ)) (d : Int) : Nat :=
  (s.filter (fun p => decide (d - 6 ≤ p.1) && decide (p.1 ≤ d))).length

/-! ## Claims -/

/-- C4: for every input row, `derive_sleep_score` yields a score in
[0, 100] equal to `clamp(duration_score + (30 - awake_penalty), 0, 100)`
with `duration_score = clamp(clamp(total,0,9)/7.5,0,1) × 70` and
`awake_penalty = clamp(clamp(awake,0,3)/1.0,0,1) × 30`; in particular
(0,0) ↦ 30, (7.5,0) ↦ 100 and (7.5,1) ↦ 70. -/
theorem c4_sleep_score_bounded_and_formula :
    (∀ total awake : ℚ,
      sleep_score total awake = sleep_score_spec total awake
      ∧ 0 ≤ sleep_score total awake ∧ sleep_score total awake ≤ 100)
    ∧ sleep_score 0 0 = 30
    ∧ sleep_score (15/2) 0 = 100
    ∧ sleep_score (15/2) 1 = 70 := by
  refine ⟨fun total awake => ⟨rfl, ?_, ?_⟩,
    by norm_num [sleep_score, clip, min_def, max_def],
    by norm_num [sleep_score, clip, min_def, max_def],
    by norm_num [sleep_score, clip, min_def, max_def]⟩
  · exact le_min (le_max_right _ _) (by norm_num)
  · exact min_le_right _ _

/-- C9: `status` returns the same result for direction `higher_better`
and `lower_better` (both use half-open `[lo, hi)` containment on the green
band then the yellow band), and any unrecognized direction yields
Borderline without raising. -/
theorem c9_status_direction_symmetry :
    (∀ (v : ℚ) (g y r : ℚ × ℚ),
      status v ⟨some "higher_better", g, y, r⟩ = status v ⟨some "lower_better", g, y, r⟩
      ∧ status v ⟨some "higher_better", g, y, r⟩ =
          (if g.1 ≤ v ∧ v < g.2 then ("On target", "green")
           else if y.1 ≤ v ∧ v < y.2 then ("Borderline", "orange")
           else ("Off target", "red")))
    ∧ (∀ (v : ℚ) (g y r : ℚ × ℚ) (d : String),
        d ≠ "range_best" → d ≠ "higher_better" → d ≠ "lower_better" →
        status v ⟨some d, g, y, r⟩ = ("Borderline", "orange")) := by
  have hb : ("higher_better" : String) ≠ "range_best" := by decide
  have lb : ("lower_better" : String) ≠ "range_best" := by decide
  have hl : ("higher_better" : String) ≠ "lower_better" := by decide
  have lh : ("lower_better" : String) ≠ "higher_better" := by decide
  constructor
  · intro v g y r
    constructor
    · simp only [status, Option.getD_some, if_neg hb, if_neg lb, if_neg hl,
        if_neg lh, if_true]
    · simp only [status, Option.getD_some, if_neg hb, in_band,
        Bool.and_eq_true, decide_eq_true_eq, if_neg hl, if_true]
  · intro v g y r d h1 h2 h3
    simp only [status, Option.getD_some, if_neg h1, if_neg h2, if_neg h3]

/-- Witness for c9: concrete instantiation, discharging the unrecognized
direction hypotheses at "bogus". -/
theorem c9_status_direction_symmetry_witness :
    status 5 ⟨some "bogus", (0, 10), (10, 20), (20, 30)⟩ = ("Borderline", "orange") :=
  c9_status_direction_symmetry.2 5 (0, 10) (10, 20) (20, 30) "bogus"
    (by decide) (by decide) (by decide)

/-- C6: two same-day data points of the same metric aggregate by sum for
`mindful_minutes` / `alcohol_consumption` and by mean for every other
metric; in particular qty 5 and qty 3 on one day merge to 8 for
`alcohol_consumption` and to 4 for `heart_rate_variability`. -/
theorem c6_same_day_sum_vs_mean :
    (∀ (name : String) (t : Int) (a b : ℚ),
      extract_metric_series
        [⟨[⟨name, [{ date := some (.valid t), qty := some (.num a) },
                   { date := some (.valid t), qty := some (.num b) }]⟩], []⟩] name
        = .ok [(to_day t, if sum_metrics.contains name then a + b else (a + b) / 2)])
    ∧ extract_metric_series
        [⟨[⟨"alcohol_consumption",
            [{ date := some (.valid 0), qty := some (.num 5) },
             { date := some (.valid 0), qty := some (.num 3) }]⟩], []⟩]
        "alcohol_consumption" = .ok [(0, 8)]
    ∧ extract_metric_series
        [⟨[⟨"heart_rate_variability",
            [{ date := some (.valid 0), qty := some (.num 5) },
             { date := some (.valid 0), qty := some (.num 3) }]⟩], []⟩]
        "heart_rate_variability" = .ok [(0, 4)] := by
  have main : ∀ (name : String) (t : Int) (a b : ℚ),
      extract_metric_series
        [⟨[⟨name, [{ date := some (.valid t), qty := some (.num a) },
                   { date := some (.valid t), qty := some (.num b) }]⟩], []⟩] name
        = .ok [(to_day t, if sum_metrics.contains name then a + b else (a + b) / 2)] := by
    intro name t a b
    simp [extract_metric_series, allRows, metricsRows, pointsRows, pointRow,
      parseTs, toFloat, groupAgg, List.insertionSort, List.orderedInsert]
  refine ⟨main, ?_, ?_⟩
  · have h := main "alcohol_consumption" 0 5 3
    norm_num [to_day, sum_metrics] at h
    exact h
  · have h := main "heart_rate_variability" 0 5 3
    norm_num [to_day, sum_metrics] at h
    exact h

/-- On integer heart-rate values the zone bands reduce to a clean
partition by upper bounds. -/
theorem classify_zone_int (n : ℤ) :
    classify_zone (n : ℚ) =
      if n ≤ 105 then "Z1"
      else if n ≤ 122 then "Z2"
      else if n ≤ 135 then "Z3"
      else if n ≤ 148 then "Z4"
      else "Z5" := by
  have h105 : ((n : ℚ) ≤ 105) ↔ (n ≤ 105) := by exact_mod_cast Iff.rfl
  have h106 : ((106 : ℚ) ≤ (n : ℚ)) ↔ (106 ≤ n) := by exact_mod_cast Iff.rfl
  have h122 : ((n : ℚ) ≤ 122) ↔ (n ≤ 122) := by exact_mod_cast Iff.rfl
  have h123 : ((123 : ℚ) ≤ (n : ℚ)) ↔ (123 ≤ n) := by exact_mod_cast Iff.rfl
  have h135 : ((n : ℚ) ≤ 135) ↔ (n ≤ 135) := by exact_mod_cast Iff.rfl
  have h136 : ((136 : ℚ) ≤ (n : ℚ)) ↔ (136 ≤ n) := by exact_mod_cast Iff.rfl
  have h148 : ((n : ℚ) ≤ 148) ↔ (n ≤ 148) := by exact_mod_cast Iff.rfl
  have h149 : ((149 : ℚ) ≤ (n : ℚ)) ↔ (149 ≤ n) := by exact_mod_cast Iff.rfl
  simp only [classify_zone, h105, h106, h122, h123, h135, h136, h148, h149]
  split_ifs <;> first | rfl | omega

/-- C1 counterexample: the bands do not cover non-integer values; 105.5
lies strictly between the Z1 and Z2 bands and classifies UNKNOWN. -/
theorem c1_zone_gap_counterexample :
    classify_zone (211/2) = "UNK" ∧ (105 : ℚ) < 211/2 ∧ (211/2 : ℚ) < 106 := by
  refine ⟨?_, by norm_num, by norm_num⟩
  norm_num [classify_zone]

/-- C1 amended: `_classify_zone` always returns one of Z1..Z5 or UNKNOWN,
and the five bands partition the INTEGERS with no gaps at the 105/106,
122/123, 135/136 and 148/149 boundaries (no integer heart-rate value is
UNKNOWN); between adjacent bands, non-integer values classify UNKNOWN. -/
theorem c1_zone_partition_amended :
    (∀ v : ℚ, classify_zone v ∈ ["Z1", "Z2", "Z3", "Z4", "Z5", "UNK"])
    ∧ (∀ n : ℤ, classify_zone (n : ℚ) ≠ "UNK")
    ∧ (∀ n : ℤ,
        (classify_zone (n : ℚ) = "Z1" ↔ n ≤ 105)
        ∧ (classify_zone (n : ℚ) = "Z2" ↔ 106 ≤ n ∧ n ≤ 122)
        ∧ (classify_zone (n : ℚ) = "Z3" ↔ 123 ≤ n ∧ n ≤ 135)
        ∧ (classify_zone (n : ℚ) = "Z4" ↔ 136 ≤ n ∧ n ≤ 148)
        ∧ (classify_zone (n : ℚ) = "Z5" ↔ 149 ≤ n)) := by
  refine ⟨?_, ?_, ?_⟩
  · intro v
    unfold classify_zone
    split_ifs <;> simp
  · intro n
    rw [classify_zone_int]
    split_ifs <;> decide
  · intro n
    rw [classify_zone_int]
    split_ifs <;> refine ⟨?_, ?_, ?_, ?_, ?_⟩ <;> simp <;> omega

theorem pointRow_ok_of_wf (d : DataPoint) (h : pointWF d = true) :
    ∃ r, pointRow d = .ok r := by
  unfold pointWF at h
  unfold pointRow
  rcases hd : d.date with _ | ds
  · exact ⟨none, rfl⟩
  · rcases hq : d.qty with _ | v
    · exact ⟨none, rfl⟩
    · rcases ds with t | s
      · rcases v with q | s
        · exact ⟨_, rfl⟩
        · rw [hd, hq] at h; simp at h
      · rw [hd, hq] at h; simp at h

theorem pointRow_none_of_skipped (d : DataPoint) (h : pointSkipped d = true) :
    pointRow d = .ok none := by
  unfold pointSkipped at h
  unfold pointRow
  rcases hd : d.date with _ | ds
  · rfl
  · rcases hq : d.qty with _ | v
    · rfl
    · rw [hd, hq] at h; simp at h

theorem pointsRows_ok (l : List DataPoint) (h : l.all pointWF = true) :
    ∃ rs, pointsRows l = .ok rs := by
  induction l with
  | nil => exact ⟨[], rfl⟩
  | cons d rest ih =>
    rw [List.all_cons, Bool.and_eq_true] at h
    obtain ⟨r, hr⟩ := pointRow_ok_of_wf d h.1
    obtain ⟨rs, hrs⟩ := ih h.2
    exact ⟨_, by rw [pointsRows, hr, hrs]⟩

theorem pointsRows_nil (l : List DataPoint) (h : l.all pointSkipped = true) :
    pointsRows l = .ok [] := by
  induction l with
  | nil => rfl
  | cons d rest ih =>
    rw [List.all_cons, Bool.and_eq_true] at h
    rw [pointsRows, pointRow_none_of_skipped d h.1, ih h.2]

theorem metricsRows_ok (name : String) (l : List Metric)
    (h : (l.all fun m => m.name != name || m.data.all pointWF) = true) :
    ∃ rs, metricsRows name l = .ok rs := by
  induction l with
  | nil => exact ⟨[], rfl⟩
  | cons m rest ih =>
    rw [List.all_cons, Bool.and_eq_true] at h
    obtain ⟨rs, hrs⟩ := ih h.2
    by_cases hm : m.name = name
    · have hwf : m.data.all pointWF = true := by
        rcases Bool.or_eq_true_iff.mp h.1 with h1 | h1
        · exact absurd hm (by simpa using h1)
        · exact h1
      obtain ⟨r, hr⟩ := pointsRows_ok m.data hwf
      exact ⟨_, by rw [metricsRows, if_pos hm, hr, hrs]⟩
    · exact ⟨_, by rw [metricsRows, if_neg hm, hrs]⟩

theorem metricsRows_nil (name : String) (l : List Metric)
    (h : (l.all fun m => m.name != name || m.data.all pointSkipped) = true) :
    metricsRows name l = .ok [] := by
  induction l with
  | nil => rfl
  | cons m rest ih =>
    rw [List.all_cons, Bool.and_eq_true] at h
    by_cases hm : m.name = name
    · have hsk : m.data.all pointSkipped = true := by
        rcases Bool.or_eq_true_iff.mp h.1 with h1 | h1
        · exact absurd hm (by simpa using h1)
        · exact h1
      rw [metricsRows, if_pos hm, pointsRows_nil m.data hsk, ih h.2]
      rfl
    · rw [metricsRows, if_neg hm, ih h.2]
      rfl

theorem allRows_ok (name : String) (ps : List Payload)
    (h : wellFormed ps name = true) : ∃ rs, allRows name ps = .ok rs := by
  induction ps with
  | nil => exact ⟨[], rfl⟩
  | cons p rest ih =>
    rw [wellFormed, List.all_cons, Bool.and_eq_true] at h
    obtain ⟨r, hr⟩ := metricsRows_ok name p.metrics h.1
    obtain ⟨rs, hrs⟩ := ih h.2
    exact ⟨_, by rw [allRows, hr, hrs]⟩

theorem allRows_nil (name : String) (ps : List Payload)
    (h : noMatch ps name = true) : allRows name ps = .ok [] := by
  induction ps with
  | nil => rfl
  | cons p rest ih =>
    rw [noMatch, List.all_cons, Bool.and_eq_true] at h
    rw [allRows, metricsRows_nil name p.metrics h.1, ih h.2]
    rfl

/-- C2 counterexample: `extract_metric_series` DOES raise on a
data-quality issue — a matching data point whose timestamp string
`dateutil.parser.parse` rejects propagates the exception (and likewise a
non-numeric value under the value key raises in `float`). -/
theorem c2_raise_counterexample :
    extract_metric_series
      [⟨[⟨"heart_rate_variability",
          [{ date := some (.malformed "not a timestamp"), qty := some (.num 1) }]⟩],
        []⟩] "heart_rate_variability" = .error "not a timestamp"
    ∧ extract_metric_series
        [⟨[⟨"heart_rate_variability",
            [{ date := some (.valid 0), qty := some (.nonNumeric "n/a") }]⟩],
          []⟩] "heart_rate_variability" = .error "n/a" := by
  constructor <;> rfl

/-- C2 amended: `extract_metric_series` returns an empty result when no
matching data is found anywhere (every matching point lacks a date or a
value), and does not raise PROVIDED every matching data point is
well-formed (parseable timestamp, numeric value); a malformed timestamp
or non-numeric value under the value key of a matching point raises. -/
theorem c2_extract_empty_and_no_raise_amended (ps : List Payload) (name : String)
    (h : wellFormed ps name = true) :
    (∃ rows, extract_metric_series ps name = .ok rows)
    ∧ (noMatch ps name = true → extract_metric_series ps name = .ok []) := by
  constructor
  · obtain ⟨rs, hrs⟩ := allRows_ok name ps h
    exact ⟨_, by rw [extract_metric_series, hrs]⟩
  · intro hn
    rw [extract_metric_series, allRows_nil name ps hn]
    rfl

/-- Witness for c2: a payload whose only matching point lacks a value is
well-formed and matches nothing, so extraction yields the empty table. -/
theorem c2_extract_empty_and_no_raise_amended_witness :
    (∃ rows, extract_metric_series
      [⟨[⟨"heart_rate_variability",
          [{ date := some (.valid 5), qty := none }]⟩], []⟩]
      "heart_rate_variability" = .ok rows)
    ∧ (noMatch
        [⟨[⟨"heart_rate_variability",
            [{ date := some (.valid 5), qty := none }]⟩], []⟩]
        "heart_rate_variability" = true →
       extract_metric_series
         [⟨[⟨"heart_rate_variability",
             [{ date := some (.valid 5), qty := none }]⟩], []⟩]
         "heart_rate_variability" = .ok []) :=
  c2_extract_empty_and_no_raise_amended _ _ (by rfl)

theorem rolling_mean_getD (xs : List ℚ) (n minp i : Nat) (hi : i < xs.length) :
    (rolling_mean xs n minp).getD i none
      = if minp ≤ min (i + 1) n then
          some (((xs.take (i + 1)).drop (i + 1 - n)).sum /
            ((((xs.take (i + 1)).drop (i + 1 - n)).length : ℚ)))
        else none := by
  unfold rolling_mean
  rw [List.getD_eq_getElem?_getD, List.getElem?_map, List.getElem?_range hi]
  have hl : ((xs.take (i + 1)).drop (i + 1 - n)).length = min (i + 1) n := by
    rw [List.length_drop, List.length_take]
    omega
  simp only [Option.map_some', Option.getD_some, hl]

/-- C5 counterexample: with present values on days 1, 2, 3 and 100, the
code's `hrv7` at day 100 IS defined (the rolling window slides over rows
of the dropna-ed series, not calendar days) although only 1 < 4 of the
last 7 days' values are present. -/
theorem c5_day_window_counterexample :
    ((hrv7 [((1 : Int), (10 : ℚ)), (2, 10), (3, 10), (100, 10)]).getD 3 (0, none)).1 = 100
    ∧ (((hrv7 [((1 : Int), (10 : ℚ)), (2, 10), (3, 10), (100, 10)]).getD 3 (0, none)).2).isSome = true
    ∧ presentLast7 [((1 : Int), (10 : ℚ)), (2, 10), (3, 10), (100, 10)] 100 = 1 := by
  refine ⟨rfl, rfl, rfl⟩

/-- C5 amended: the rolling statistics are row-based, not day-based: over
the dropna-ed present-value series, `hrv7` at row `i` is defined iff the
trailing 7-row window holds at least 4 rows, i.e. iff `i ≥ 3`;
`baseline_30d` at row `i` is defined iff at least 14 of the trailing 30
rows exist, i.e. iff `i ≥ 13`; and the HRV delta at a row with fewer than
4 preceding rows is undefined (`none`), not a crash. Calendar-day gaps do
not affect any of these. -/
theorem c5_rolling_min_periods_amended (s : List (Int × ℚ)) (i : Nat)
    (hi : i < s.length) :
    (((rolling_mean (s.map Prod.snd) 7 4).getD i none).isSome ↔ 3 ≤ i)
    ∧ (((rolling_mean (s.map Prod.snd) 30 14).getD i none).isSome ↔ 13 ≤ i)
    ∧ (i < 3 → ((hrv_delta_pct s).getD i (0, none)).2 = none) := by
  have hil : i < (s.map Prod.snd).length := by simpa using hi
  have h7 := rolling_mean_getD (s.map Prod.snd) 7 4 i hil
  have h30 := rolling_mean_getD (s.map Prod.snd) 30 14 i hil
  refine ⟨?_, ?_, ?_⟩
  · rw [h7]
    split_ifs with h <;> simp <;> omega
  · rw [h30]
    split_ifs with h <;> simp <;> omega
  · intro h3
    have hlen7 : i < (rolling_mean (s.map Prod.snd) 7 4).length := by
      simpa [rolling_mean] using hil
    have hlen30 : i < (rolling_mean (s.map Prod.snd) 30 14).length := by
      simpa [rolling_mean] using hil
    have hd7 : (rolling_mean (s.map Prod.snd) 7 4).getD i none = none := by
      rw [h7, if_neg (by omega)]
    have h7e : (rolling_mean (s.map Prod.snd) 7 4)[i]? = some none := by
      rw [List.getD_eq_getElem?_getD, List.getElem?_eq_getElem hlen7,
        Option.getD_some] at hd7
      rw [List.getElem?_eq_getElem hlen7, hd7]
    have h30e : (rolling_mean (s.map Prod.snd) 30 14)[i]?
        = some ((rolling_mean (s.map Prod.snd) 30 14).get ⟨i, hlen30⟩) :=
      List.getElem?_eq_getElem hlen30
    have hse : s[i]? = some (s.get ⟨i, hi⟩) := List.getElem?_eq_getElem hi
    have hzin : ((rolling_mean (s.map Prod.snd) 7 4).zip
        (rolling_mean (s.map Prod.snd) 30 14))[i]?
        = some (none, (rolling_mean (s.map Prod.snd) 30 14).get ⟨i, hlen30⟩) :=
      List.getElem?_zip_eq_some.mpr ⟨h7e, h30e⟩
    have hzout : (s.zip ((rolling_mean (s.map Prod.snd) 7 4).zip
        (rolling_mean (s.map Prod.snd) 30 14)))[i]?
        = some (s.get ⟨i, hi⟩,
            (none, (rolling_mean (s.map Prod.snd) 30 14).get ⟨i, hlen30⟩)) :=
      List.getElem?_zip_eq_some.mpr ⟨hse, hzin⟩
    have hmap : (hrv_delta_pct s)[i]? = some ((s.get ⟨i, hi⟩).1, none) := by
      unfold hrv_delta_pct
      rw [List.getElem?_map, hzout]
      rfl
    rw [List.getD_eq_getElem?_getD, hmap, Option.getD_some]

/-- Witness for c5: instantiate the amended theorem at the 4-row series
used in the counterexample, at row index 2 (third row). -/
theorem c5_rolling_min_periods_amended_witness :
    (((rolling_mean ([((1 : Int), (10 : ℚ)), (2, 10), (3, 10), (100, 10)].map Prod.snd) 7 4).getD 2 none).isSome ↔ 3 ≤ 2)
    ∧ (((rolling_mean ([((1 : Int), (10 : ℚ)), (2, 10), (3, 10), (100, 10)].map Prod.snd) 30 14).getD 2 none).isSome ↔ 13 ≤ 2)
    ∧ (2 < 3 → ((hrv_delta_pct [((1 : Int), (10 : ℚ)), (2, 10), (3, 10), (100, 10)]).getD 2 (0, none)).2 = none) :=
  c5_rolling_min_periods_amended [((1 : Int), (10 : ℚ)), (2, 10), (3, 10), (100, 10)] 2
    (by decide)

/-- The foldl of `peakIdx` over `range (n+1)`, abstracted over the value
function. -/
def argmaxAux (v : Nat → ℚ) (n : Nat) : Nat :=
  (List.range n).foldl (fun best i => if v best < v i then i else best) 0

theorem argmaxAux_spec (v : Nat → ℚ) (n : Nat) :
    argmaxAux v (n + 1) ≤ n
    ∧ (∀ j, j ≤ n → v j ≤ v (argmaxAux v (n + 1)))
    ∧ (∀ j, j < argmaxAux v (n + 1) → v j < v (argmaxAux v (n + 1))) := by
  induction n with
  | zero =>
    have hb : argmaxAux v 1 = 0 := by
      simp [argmaxAux, List.range_succ]
    rw [hb]
    exact ⟨le_refl 0,
      fun j hj => by rw [Nat.le_zero.mp hj],
      fun j hj => absurd hj (Nat.not_lt_zero j)⟩
  | succ n ih =>
    have hstep : argmaxAux v (n + 2)
        = if v (argmaxAux v (n + 1)) < v (n + 1) then n + 1 else argmaxAux v (n + 1) := by
      unfold argmaxAux
      rw [show (n + 2) = (n + 1) + 1 from rfl, List.range_succ, List.foldl_append]
      rfl
    by_cases hlt : v (argmaxAux v (n + 1)) < v (n + 1)
    · rw [hstep, if_pos hlt]
      refine ⟨le_refl _, ?_, ?_⟩
      · intro j hj
        rcases Nat.eq_or_lt_of_le hj with h | h
        · rw [h]
        · exact (ih.2.1 j (by omega)).trans hlt.le
      · intro j hj
        exact lt_of_le_of_lt (ih.2.1 j (by omega)) hlt
    · rw [hstep, if_neg hlt]
      refine ⟨ih.1.trans (by omega), ?_, ih.2.2⟩
      intro j hj
      rcases Nat.eq_or_lt_of_le hj with h | h
      · rw [h]; exact not_lt.mp hlt
      · exact ih.2.1 j (by omega)

/-- C3: for a workout with at least 5 valid time-sorted samples, the peak
is the first occurrence of the maximum value; the recovery value is the
first strictly-later sample timestamped ≥ peak_time + 60 s, falling back
to the last sample's value; `hrr1 = peak − recovery`; and on the spec's
example the result is 40. -/
theorem c3_hrr1_peak_recovery (pts : List (Int × ℚ)) (h5 : 5 ≤ pts.length)
    (hs : pts.Sorted (fun a b => a.1 ≤ b.1)) :
    peakIdx pts < pts.length
    ∧ (∀ j, j < pts.length → (pts.getD j (0, 0)).2 ≤ (pts.getD (peakIdx pts) (0, 0)).2)
    ∧ (∀ j, j < peakIdx pts → (pts.getD j (0, 0)).2 < (pts.getD (peakIdx pts) (0, 0)).2)
    ∧ hrr1 pts = (pts.getD (peakIdx pts) (0, 0)).2 -
        (match (pts.drop (peakIdx pts + 1)).find?
            (fun p => decide ((pts.getD (peakIdx pts) (0, 0)).1 + 60 ≤ p.1)) with
         | some p => p.2
         | none => (pts.getLast?.getD (0, 0)).2)
    ∧ hrr1 [((0 : Int), (100 : ℚ)), (30, 140), (60, 150), (90, 120), (150, 110)] = 40 := by
  obtain ⟨n, hn⟩ : ∃ n, pts.length = n + 1 := ⟨pts.length - 1, by omega⟩
  have hpk : peakIdx pts = argmaxAux (fun j => (pts.getD j (0, 0)).2) pts.length := rfl
  have hspec := argmaxAux_spec (fun j => (pts.getD j (0, 0)).2) n
  rw [hn] at hpk
  have hlt : peakIdx pts < pts.length := by rw [hpk, hn]; omega
  refine ⟨hlt, ?_, ?_, ?_, ?_⟩
  · intro j hj
    rw [hpk]
    exact hspec.2.1 j (by omega)
  · intro j hj
    rw [hpk] at hj ⊢
    exact hspec.2.2 j hj
  · have hdrop : pts.drop (peakIdx pts)
        = pts.getD (peakIdx pts) (0, 0) :: pts.drop (peakIdx pts + 1) := by
      rw [List.getD_eq_getElem pts (0, 0) hlt]
      exact List.drop_eq_getElem_cons hlt
    have hnp : decide ((pts.getD (peakIdx pts) (0, 0)).1 + 60
        ≤ (pts.getD (peakIdx pts) (0, 0)).1) = false := by
      simp only [decide_eq_false_iff_not]
      omega
    unfold hrr1
    rw [hdrop, List.find?_cons, hnp]
  · have hr : hrr1 [((0 : Int), (100 : ℚ)), (30, 140), (60, 150), (90, 120), (150, 110)]
        = 150 - 110 := rfl
    rw [hr]
    norm_num

/-- Witness for c3: the spec's 5-sample example discharges the length and
sortedness hypotheses. -/
theorem c3_hrr1_peak_recovery_witness :
    hrr1 [((0 : Int), (100 : ℚ)), (30, 140), (60, 150), (90, 120), (150, 110)] = 40 :=
  (c3_hrr1_peak_recovery [((0 : Int), (100 : ℚ)), (30, 140), (60, 150), (90, 120), (150, 110)]
    (by decide) (by decide)).2.2.2.2

/-- C10: a workout whose ≥5 valid samples all classify UNKNOWN has zone
total 0, and the `total == 0` guard makes it contribute neither a
zone-minute row nor an HRR1 row (the HRR1 block is skipped with the zone
tally). -/
theorem c10_all_unknown_workout_dropped (w : Workout) (pts0 : List (Int × ℚ)) (day : Int)
    (hp : hrPts w.heartRateData = .ok pts0)
    (h5 : 5 ≤ pts0.length)
    (hunk : ∀ p ∈ pts0, classify_zone p.2 = "UNK")
    (hday : workoutDay w (List.insertionSort (fun a b => a.1 ≤ b.1) pts0) = .ok day) :
    workoutRows w = .ok ([], []) := by
  have hmem : ∀ p ∈ List.insertionSort (fun a b => a.1 ≤ b.1) pts0,
      classify_zone p.2 = "UNK" := by
    intro p hpmem
    exact hunk p ((List.perm_insertionSort _ _).mem_iff.mp hpmem)
  have hz : ∀ z : String, z ≠ "UNK" →
      zcount z (List.insertionSort (fun a b => a.1 ≤ b.1) pts0) = 0 := by
    intro z hzne
    unfold zcount
    rw [List.length_eq_zero, List.filter_eq_nil]
    intro p hpmem
    simp [hmem p hpmem, Ne.symm hzne]
  have htot : zTotal (List.insertionSort (fun a b => a.1 ≤ b.1) pts0) = 0 := by
    unfold zTotal
    rw [hz "Z1" (by decide), hz "Z2" (by decide), hz "Z3" (by decide),
      hz "Z4" (by decide), hz "Z5" (by decide)]
  simp only [workoutRows, hp]
  rw [if_neg (by omega)]
  simp only [hday]
  rw [if_pos htot]

/-- Witness for c10: a 5-sample workout whose every sample lies in a gap
between zone bands. -/
theorem c10_all_unknown_workout_dropped_witness :
    workoutRows
      ⟨some (.valid 86400),
       [⟨some (.valid 0), some (.num (211/2))⟩, ⟨some (.valid 60), some (.num (211/2))⟩,
        ⟨some (.valid 120), some (.num (245/2))⟩, ⟨some (.valid 180), some (.num (271/2))⟩,
        ⟨some (.valid 240), some (.num (297/2))⟩]⟩ = .ok ([], []) :=
  c10_all_unknown_workout_dropped _
    [(0, 211/2), (60, 211/2), (120, 245/2), (180, 271/2), (240, 297/2)] 1
    rfl (by decide)
    (by
      intro p hp
      simp only [List.mem_cons, List.not_mem_nil, or_false] at hp
      rcases hp with h | h | h | h | h <;> subst h <;> norm_num [classify_zone])
    rfl

theorem workoutRows_z2_le (w : Workout) (zs : List ZRow) (hs : List (Int × ℚ))
    (h : workoutRows w = .ok (zs, hs)) : ∀ r ∈ zs, r.z2 ≤ r.total := by
  unfold workoutRows at h
  split at h
  · cases h
  · split at h
    · simp only [Except.ok.injEq, Prod.mk.injEq] at h
      rw [← h.1]
      intro r hr
      cases hr
    · split at h
      · cases h
      · split at h
        · simp only [Except.ok.injEq, Prod.mk.injEq] at h
          rw [← h.1]
          intro r hr
          cases hr
        · simp only [Except.ok.injEq, Prod.mk.injEq] at h
          rw [← h.1]
          intro r hr
          rcases List.mem_singleton.mp hr with rfl
          show zcount "Z2" _ ≤ zTotal _
          unfold zTotal
          omega

theorem workoutsRows_z2_le (ws : List Workout) (zs : List ZRow) (hs : List (Int × ℚ))
    (h : workoutsRows ws = .ok (zs, hs)) : ∀ r ∈ zs, r.z2 ≤ r.total := by
  induction ws generalizing zs hs with
  | nil =>
    simp only [workoutsRows, Except.ok.injEq, Prod.mk.injEq] at h
    rw [← h.1]
    intro r hr
    cases hr
  | cons w rest ih =>
    unfold workoutsRows at h
    rcases hw : workoutRows w with e | p <;> rw [hw] at h
    · cases h
    · obtain ⟨zs1, hs1⟩ := p
      rcases hr : workoutsRows rest with e | p2 <;> rw [hr] at h
      · cases h
      · obtain ⟨zs2, hs2⟩ := p2
        simp only [Except.ok.injEq, Prod.mk.injEq] at h
        rw [← h.1]
        intro r hrmem
        rcases List.mem_append.mp hrmem with hm | hm
        · exact workoutRows_z2_le w zs1 hs1 hw r hm
        · exact ih zs2 hs2 hr r hm

theorem computeRows_z2_le (ps : List Payload) (zs : List ZRow) (hs : List (Int × ℚ))
    (h : computeRows ps = .ok (zs, hs)) : ∀ r ∈ zs, r.z2 ≤ r.total := by
  induction ps generalizing zs hs with
  | nil =>
    simp only [computeRows, Except.ok.injEq, Prod.mk.injEq] at h
    rw [← h.1]
    intro r hr
    cases hr
  | cons p rest ih =>
    unfold computeRows at h
    rcases hw : workoutsRows p.workouts with e | pr <;> rw [hw] at h
    · cases h
    · obtain ⟨zs1, hs1⟩ := pr
      rcases hrr : computeRows rest with e | p2 <;> rw [hrr] at h
      · cases h
      · obtain ⟨zs2, hs2⟩ := p2
        simp only [Except.ok.injEq, Prod.mk.injEq] at h
        rw [← h.1]
        intro r hrmem
        rcases List.mem_append.mp hrmem with hm | hm
        · exact workoutsRows_z2_le p.workouts zs1 hs1 hw r hm
        · exact ih zs2 hs2 hrr r hm

/-- C7: every row of the daily zone table has `zone2_pct` in [0, 100];
the division is guarded by treating the divisor as 1 when `cardio_min`
is 0, so a zero-cardio row has `zone2_pct = 0` and no division-by-zero
is raised. -/
theorem c7_zone2_pct_bounds (ps : List Payload) (daily : List ZRow)
    (hrr : List (Int × ℚ))
    (h : compute_zone_minutes_and_hrr1 ps = .ok (daily, hrr)) :
    ∀ row ∈ daily, 0 ≤ row.pct ∧ row.pct ≤ 100 ∧ (row.total = 0 → row.pct = 0) := by
  unfold compute_zone_minutes_and_hrr1 at h
  rcases hc : computeRows ps with e | zrhr <;> rw [hc] at h
  · cases h
  · obtain ⟨zr, hr⟩ := zrhr
    simp only [Except.ok.injEq, Prod.mk.injEq] at h
    obtain ⟨h1, h2⟩ := h
    subst h1
    have hinv := computeRows_z2_le ps zr hr hc
    intro row hrow
    simp only [dailyAgg, List.mem_map] at hrow
    obtain ⟨d, hd, hrow⟩ := hrow
    subst hrow
    set rs := zr.filter (fun r => r.day = d) with hrs
    have hle : ((rs.map ZRow.z2).sum : ℚ) ≤ ((rs.map ZRow.total).sum : ℚ) := by
      have : (rs.map ZRow.z2).sum ≤ (rs.map ZRow.total).sum := by
        apply List.sum_le_sum
        intro r hrm
        exact hinv r (List.mem_filter.mp hrm).1
      exact_mod_cast this
    have hz2 : (0 : ℚ) ≤ ((rs.map ZRow.z2).sum : ℚ) := by positivity
    by_cases hst : 0 < (rs.map ZRow.total).sum
    · have hstq : (0 : ℚ) < ((rs.map ZRow.total).sum : ℚ) := by exact_mod_cast hst
      refine ⟨?_, ?_, ?_⟩
      · show (0 : ℚ) ≤ 100 * _ / _
        rw [if_pos hst]
        positivity
      · show 100 * _ / _ ≤ 100
        rw [if_pos hst, div_le_iff hstq]
        exact mul_le_mul_of_nonneg_left hle (by norm_num)
      · intro h0
        exact absurd h0 (by show ¬ (rs.map ZRow.total).sum = 0; omega)
    · have hst0 : (rs.map ZRow.total).sum = 0 := by omega
      have hz20 : (rs.map ZRow.z2).sum = 0 := by
        have : (rs.map ZRow.z2).sum ≤ (rs.map ZRow.total).sum := by
          apply List.sum_le_sum
          intro r hrm
          exact hinv r (List.mem_filter.mp hrm).1
        omega
      refine ⟨?_, ?_, ?_⟩
      · show (0 : ℚ) ≤ 100 * _ / _
        rw [hz20]
        norm_num
      · show 100 * _ / _ ≤ 100
        rw [hz20]
        norm_num
      · intro _
        show 100 * _ / _ = 0
        rw [hz20]
        norm_num

/-- Concrete sorted sample list for the c7 witness (one Z1 sample, four
Z2 samples). -/
def c7pts : List (Int × ℚ) :=
  [(0, 100), (60, 110), (120, 115), (180, 120), (240, 112)]

/-- Concrete payload set for the c7 witness: one workout whose samples
are `c7pts`, ending on day 1. -/
def c7payloads : List Payload :=
  [⟨[], [⟨some (.valid 86400),
     [⟨some (.valid 0), some (.num 100)⟩, ⟨some (.valid 60), some (.num 110)⟩,
      ⟨some (.valid 120), some (.num 115)⟩, ⟨some (.valid 180), some (.num 120)⟩,
      ⟨some (.valid 240), some (.num 112)⟩]⟩]⟩]

/-- Witness for c7: the daily table row produced from `c7payloads`. -/
theorem c7_zone2_pct_bounds_witness :
    0 ≤ ((dailyAgg [zrowOf 1 c7pts]).getD 0 ⟨0, 0, 0, 0, 0, 0, 0, 0⟩).pct
    ∧ ((dailyAgg [zrowOf 1 c7pts]).getD 0 ⟨0, 0, 0, 0, 0, 0, 0, 0⟩).pct ≤ 100
    ∧ (((dailyAgg [zrowOf 1 c7pts]).getD 0 ⟨0, 0, 0, 0, 0, 0, 0, 0⟩).total = 0 →
        ((dailyAgg [zrowOf 1 c7pts]).getD 0 ⟨0, 0, 0, 0, 0, 0, 0, 0⟩).pct = 0) :=
  c7_zone2_pct_bounds c7payloads (dailyAgg [zrowOf 1 c7pts])
    (groupAgg false [(1, hrr1 c7pts)]) rfl
    ((dailyAgg [zrowOf 1 c7pts]).getD 0 ⟨0, 0, 0, 0, 0, 0, 0, 0⟩) (List.Mem.head _)

theorem pairwise_lt_sortedDedup (l : List Int) :
    (List.insertionSort (· ≤ ·) l.dedup).Pairwise (· < ·) := by
  have hsorted : (List.insertionSort (· ≤ ·) l.dedup).Sorted (· ≤ ·) :=
    List.sorted_insertionSort _ _
  have hnodup : (List.insertionSort (· ≤ ·) l.dedup).Nodup :=
    (List.perm_insertionSort _ _).nodup_iff.mpr l.nodup_dedup
  exact hsorted.lt_of_le hnodup

theorem groupAgg_dates (b : Bool) (rows : List (Int × ℚ)) :
    (groupAgg b rows).map Prod.fst
      = List.insertionSort (· ≤ ·) (rows.map Prod.fst).dedup := by
  unfold groupAgg
  rw [List.map_map]
  exact List.map_id'' (fun x => rfl) _

theorem dailyAgg_dates (rows : List ZRow) :
    (dailyAgg rows).map ZRow.day
      = List.insertionSort (· ≤ ·) (rows.map ZRow.day).dedup := by
  unfold dailyAgg
  rw [List.map_map]
  exact List.map_id'' (fun x => rfl) _

theorem sleepAgg_dates (rows : List (Int × ℚ × ℚ)) :
    (sleepAgg rows).map Prod.fst
      = List.insertionSort (· ≤ ·) (rows.map Prod.fst).dedup := by
  unfold sleepAgg
  rw [List.map_map]
  exact List.map_id'' (fun x => rfl) _

theorem tableOfSeries_dates (name : String) (s : List (Int × ℚ)) :
    (tableOfSeries name s).dates = s.map Prod.fst := by
  unfold tableOfSeries Table.dates
  rw [List.map_map]
  rfl

theorem tableOfZ_dates (rows : List ZRow) :
    (tableOfZ rows).dates = rows.map ZRow.day := by
  unfold tableOfZ Table.dates
  rw [List.map_map]
  rfl

theorem derive_sleep_score_dates (rows : List (Int × ℚ × ℚ)) :
    (derive_sleep_score rows).map Prod.fst = rows.map Prod.fst := by
  unfold derive_sleep_score
  rw [List.map_map]
  rfl

theorem extract_ok_shape (ps : List Payload) (name : String) (s : List (Int × ℚ))
    (h : extract_metric_series ps name = .ok s) :
    ∃ rows, s = groupAgg (sum_metrics.contains name) rows := by
  unfold extract_metric_series at h
  split at h
  · cases h
  · injection h with hv
    exact ⟨_, hv.symm⟩

theorem sleep_daily_ok_shape (ps : List Payload) (s : List (Int × ℚ × ℚ))
    (h : extract_sleep_daily ps = .ok s) : ∃ rows, s = sleepAgg rows := by
  unfold extract_sleep_daily at h
  split at h
  · cases h
  · injection h with hv
    exact ⟨_, hv.symm⟩

theorem compute_ok_shape (ps : List Payload) (p : List ZRow × List (Int × ℚ))
    (h : compute_zone_minutes_and_hrr1 ps = .ok p) :
    ∃ zr hr, p = (dailyAgg zr, groupAgg false hr) := by
  unfold compute_zone_minutes_and_hrr1 at h
  split at h
  · cases h
  · injection h with hv
    exact ⟨_, _, hv.symm⟩

theorem extract_dates_pairwise (ps : List Payload) (name : String)
    (s : List (Int × ℚ)) (h : extract_metric_series ps name = .ok s) :
    (s.map Prod.fst).Pairwise (· < ·) := by
  obtain ⟨rows, rfl⟩ := extract_ok_shape ps name s h
  rw [groupAgg_dates]
  exact pairwise_lt_sortedDedup _

theorem mergeTables_dates (a b : Table) :
    (mergeTables a b).dates
      = a.dates ++ b.dates.filter (fun d => ¬ d ∈ a.dates) := by
  unfold mergeTables Table.dates
  rw [List.map_map]
  exact List.map_id'' (fun x => rfl) _

theorem mergeTables_dates_mem (a b : Table) (x : Int) :
    x ∈ (mergeTables a b).dates ↔ x ∈ a.dates ∨ x ∈ b.dates := by
  rw [mergeTables_dates]
  simp only [List.mem_append, List.mem_filter, decide_eq_true_eq]
  by_cases hx : x ∈ a.dates <;> simp [hx]

theorem mergeTables_dates_nodup (a b : Table)
    (ha : a.dates.Nodup) (hb : b.dates.Nodup) :
    (mergeTables a b).dates.Nodup := by
  rw [mergeTables_dates]
  rw [List.nodup_append]
  refine ⟨ha, hb.filter _, ?_⟩
  intro x hxa hxb
  rcases List.mem_filter.mp hxb with ⟨_, hdec⟩
  exact (decide_eq_true_eq.mp hdec) hxa

def optDates : Option Table → List Int
  | none => []
  | some t => t.dates

theorem foldl_mergeStep_nodup (ts : List Table) (base : Option Table)
    (hb : (optDates base).Nodup) (ht : ∀ t ∈ ts, t.dates.Nodup) :
    (optDates (ts.foldl mergeStep base)).Nodup := by
  induction ts generalizing base with
  | nil => exact hb
  | cons t rest ih =>
    rw [List.foldl_cons]
    refine ih (mergeStep base t) ?_ (fun u hu => ht u (List.mem_cons_of_mem _ hu))
    unfold mergeStep
    split
    · exact hb
    · cases base with
      | none => exact ht t (List.mem_cons_self _ _)
      | some b => exact mergeTables_dates_nodup b t hb (ht t (List.mem_cons_self _ _))

theorem foldl_mergeStep_mem (ts : List Table) (base : Option Table) (x : Int) :
    x ∈ optDates (ts.foldl mergeStep base)
      ↔ x ∈ optDates base ∨ ∃ t ∈ ts, x ∈ t.dates := by
  induction ts generalizing base with
  | nil => simp
  | cons t rest ih =>
    have hstep : ∀ y, y ∈ optDates (mergeStep base t)
        ↔ y ∈ optDates base ∨ y ∈ t.dates := by
      intro y
      unfold mergeStep
      split
      · next hemp =>
        have hd : t.dates = [] := by
          unfold Table.dates
          rw [List.isEmpty_iff.mp hemp]
          rfl
        simp [hd]
      · cases base with
        | none => simp [optDates]
        | some b => simpa [optDates] using mergeTables_dates_mem b t y
    rw [List.foldl_cons, ih, hstep]
    constructor
    · rintro ((hb | htd) | ⟨u, hu, hud⟩)
      · exact Or.inl hb
      · exact Or.inr ⟨t, List.mem_cons_self _ _, htd⟩
      · exact Or.inr ⟨u, List.mem_cons_of_mem _ hu, hud⟩
    · rintro (hb | ⟨u, hu, hud⟩)
      · exact Or.inl (Or.inl hb)
      · rcases List.mem_cons.mp hu with rfl | hu2
        · exact Or.inl (Or.inr hud)
        · exact Or.inr ⟨u, hu2, hud⟩

theorem foldl_mergeStep_none (ts : List Table)
    (h : ∀ t ∈ ts, t.rows = []) : ts.foldl mergeStep none = none := by
  induction ts with
  | nil => rfl
  | cons t rest ih =>
    rw [List.foldl_cons]
    have hstep : mergeStep none t = none := by
      unfold mergeStep
      rw [if_pos (by simp [h t (List.mem_cons_self _ _)])]
    rw [hstep]
    exact ih (fun u hu => h u (List.mem_cons_of_mem _ hu))

instance : IsTotal (Int × List (Option ℚ)) (fun r s => r.1 ≤ s.1) :=
  ⟨fun a b => le_total a.1 b.1⟩

instance : IsTrans (Int × List (Option ℚ)) (fun r s => r.1 ≤ s.1) :=
  ⟨fun _ _ _ h1 h2 => le_trans h1 h2⟩

theorem sortTable_dates_mem (t : Table) (x : Int) :
    x ∈ (sortTable t).dates ↔ x ∈ t.dates := by
  unfold sortTable Table.dates
  exact ((List.perm_insertionSort _ t.rows).map Prod.fst).mem_iff

theorem sortTable_dates_pairwise (t : Table) (hn : t.dates.Nodup) :
    (sortTable t).dates.Pairwise (· < ·) := by
  have hsorted : (List.insertionSort (fun r s => r.1 ≤ s.1) t.rows).Sorted
      (fun r s => r.1 ≤ s.1) := List.sorted_insertionSort _ _
  have hd : ((sortTable t).dates).Sorted (· ≤ ·) :=
    List.Pairwise.map _ (fun _ _ h => h) hsorted
  have hnodup : ((sortTable t).dates).Nodup :=
    ((List.perm_insertionSort _ t.rows).map Prod.fst).nodup_iff.mpr hn
  exact hd.lt_of_le hnodup

theorem sourceTables_pairwise (ps : List Payload) (ts : List Table)
    (h : sourceTables ps = .ok ts) :
    ∀ t ∈ ts, t.dates.Pairwise (· < ·) := by
  unfold sourceTables at h
  split at h
  · cases h
  next hrv heq1 =>
  split at h
  · cases h
  next rhr heq2 =>
  split at h
  · cases h
  next rr heq3 =>
  split at h
  · cases h
  next bd heq4 =>
  split at h
  · cases h
  next mm heq5 =>
  split at h
  · cases h
  next alc heq6 =>
  split at h
  · cases h
  next sleep heq7 =>
  split at h
  · cases h
  next wdhrr heq8 =>
  injection h with hv
  subst hv
  obtain ⟨zr, hr, hp⟩ := compute_ok_shape ps wdhrr heq8
  intro t ht
  simp only [List.mem_cons, List.not_mem_nil, or_false] at ht
  rcases ht with rfl | rfl | rfl | rfl | rfl | rfl | rfl | rfl | rfl
  · rw [hp, tableOfZ_dates, dailyAgg_dates]
    exact pairwise_lt_sortedDedup _
  · rw [hp, tableOfSeries_dates, groupAgg_dates]
    exact pairwise_lt_sortedDedup _
  · rw [tableOfSeries_dates]
    exact extract_dates_pairwise ps _ hrv heq1
  · rw [tableOfSeries_dates]
    exact extract_dates_pairwise ps _ rhr heq2
  · rw [tableOfSeries_dates]
    exact extract_dates_pairwise ps _ rr heq3
  · rw [tableOfSeries_dates]
    exact extract_dates_pairwise ps _ bd heq4
  · rw [tableOfSeries_dates]
    exact extract_dates_pairwise ps _ mm heq5
  · rw [tableOfSeries_dates]
    exact extract_dates_pairwise ps _ alc heq6
  · rw [tableOfSeries_dates, derive_sleep_score_dates]
    obtain ⟨rows, rfl⟩ := sleep_daily_ok_shape ps sleep heq7
    rw [sleepAgg_dates]
    exact pairwise_lt_sortedDedup _

/-- C8: the merged table of `build_phase1_daily` has strictly increasing
dates (one row per distinct calendar date, sorted ascending, never
duplicated); its date set is exactly the union of the source tables'
dates; and when every per-source table is empty the result is the empty
date-only table, not an error. -/
theorem c8_daily_merge_invariants (ps : List Payload) (ts : List Table) (t : Table)
    (hs : sourceTables ps = .ok ts) (h : build_phase1_daily ps = .ok t) :
    t.dates.Pairwise (· < ·)
    ∧ (∀ d : Int, d ∈ t.dates ↔ ∃ src ∈ ts, d ∈ src.dates)
    ∧ ((∀ src ∈ ts, src.rows = []) → t = ⟨[], []⟩) := by
  have h2 : build_phase1_daily ps
      = .ok (match ts.foldl mergeStep none with
             | none => (⟨[], []⟩ : Table)
             | some b => sortTable b) := by
    unfold build_phase1_daily
    rw [hs]
  rw [h2] at h
  injection h with hv
  have hnodups : ∀ u ∈ ts, u.dates.Nodup :=
    fun u hu => (sourceTables_pairwise ps ts hs u hu).imp ne_of_lt
  rcases hfold : ts.foldl mergeStep none with _ | b
  · rw [hfold] at hv
    refine ⟨?_, ?_, ?_⟩
    · rw [← hv]
      exact List.Pairwise.nil
    · intro d
      have hmem := foldl_mergeStep_mem ts none d
      rw [hfold] at hmem
      simp only [optDates, List.not_mem_nil, false_or, false_iff] at hmem
      rw [← hv]
      simp only [Table.dates, List.map_nil, List.not_mem_nil, false_iff]
      exact hmem
    · intro _
      exact hv.symm
  · rw [hfold] at hv
    have hbn : (optDates (some b)).Nodup := by
      have hn := foldl_mergeStep_nodup ts none (by simp [optDates]) hnodups
      rw [hfold] at hn
      exact hn
    refine ⟨?_, ?_, ?_⟩
    · rw [← hv]
      exact sortTable_dates_pairwise b hbn
    · intro d
      rw [← hv, sortTable_dates_mem]
      have hmem := foldl_mergeStep_mem ts none d
      rw [hfold] at hmem
      simpa [optDates] using hmem
    · intro hall
      have hnone := foldl_mergeStep_none ts hall
      rw [hfold] at hnone
      cases hnone

/-- The nine per-source tables produced from an empty payload set. -/
def emptySources : List Table :=
  [⟨["z1_min", "z2_min", "z3_min", "z4_min", "z5_min", "cardio_min", "zone2_pct"], []⟩,
   ⟨["hrr1"], []⟩, ⟨["heart_rate_variability"], []⟩, ⟨["resting_heart_rate"], []⟩,
   ⟨["respiratory_rate"], []⟩, ⟨["breathing_disturbances"], []⟩,
   ⟨["mindful_minutes"], []⟩, ⟨["alcohol_consumption"], []⟩,
   ⟨["sleep_score_derived"], []⟩]

/-- Witness for c8: an empty payload set, where every source table is
empty and the merge yields the empty date-only table. -/
theorem c8_daily_merge_invariants_witness :
    (Table.mk [] []).dates.Pairwise (· < ·)
    ∧ (((0 : Int) ∈ (Table.mk [] []).dates) ↔ ∃ src ∈ emptySources, (0 : Int) ∈ src.dates)
    ∧ (Table.mk [] [] : Table) = ⟨[], []⟩ :=
  ⟨(c8_daily_merge_invariants [] emptySources ⟨[], []⟩ rfl rfl).1,
   (c8_daily_merge_invariants [] emptySources ⟨[], []⟩ rfl rfl).2.1 0,
   (c8_daily_merge_invariants [] emptySources ⟨[], []⟩ rfl rfl).2.2 (by decide)⟩

end Health
